import Mathlib

/-!
Verification of the reddit-tfidf Spark driver (`src/processing/spark/driver.py`)
against its natural-language specification.

Scores are modelled as rationals (ℚ): the top-K extraction, sorting and
tie-breaking logic of the driver depends only on the ordering of the scores,
which ℚ shares with the IEEE floats used at runtime (on the finite,
non-NaN values the pipeline produces).

`numpy.ndarray.argsort` is modelled as a stable ascending sort of the index
range: numpy dispatches to insertion sort (which is stable) for the small
sub-arrays relevant to the concrete inputs analysed here, and stability is
the deterministic reading of its tie behaviour.
-/

namespace RedditTfidf

/-- Index comparison used to model `tfidfs.argsort()`: indices are ordered by
their score ascending, ties by the index itself ascending (stable sort). -/
def AscIdx (x : List ℚ) (i j : ℕ) : Prop :=
  x.getD i 0 < x.getD j 0 ∨ (x.getD i 0 = x.getD j 0 ∧ i ≤ j)

instance (x : List ℚ) : DecidableRel (AscIdx x) := fun i j => by
  unfold AscIdx; infer_instance

instance (x : List ℚ) : IsTotal ℕ (AscIdx x) where
  total i j := by
    unfold AscIdx
    rcases lt_trichotomy (x.getD i 0) (x.getD j 0) with h | h | h
    · exact Or.inl (Or.inl h)
    · rcases Nat.le_total i j with hij | hij
      · exact Or.inl (Or.inr ⟨h, hij⟩)
      · exact Or.inr (Or.inr ⟨h.symm, hij⟩)
    · exact Or.inr (Or.inl h)

instance (x : List ℚ) : IsTrans ℕ (AscIdx x) where
  trans i j l hij hjl := by
    unfold AscIdx at *
    rcases hij with h1 | ⟨h1, h1le⟩ <;> rcases hjl with h2 | ⟨h2, h2le⟩
    · exact Or.inl (h1.trans h2)
    · exact Or.inl (h2 ▸ h1)
    · exact Or.inl (h1 ▸ h2)
    · exact Or.inr ⟨h1.trans h2, h1le.trans h2le⟩

instance (x : List ℚ) : IsAntisymm ℕ (AscIdx x) where
  antisymm i j hij hji := by
    unfold AscIdx at *
    rcases hij with h1 | ⟨h1, h1le⟩ <;> rcases hji with h2 | ⟨h2, h2le⟩
    · exact absurd (h1.trans h2) (lt_irrefl _)
    · exact absurd h1 (h2 ▸ lt_irrefl _)
    · exact absurd h2 (h1 ▸ lt_irrefl _)
    · exact Nat.le_antisymm h1le h2le

/-- Model of `tfidfs.argsort()` from `getTopKWords` (driver.py line 79): the indices of
the array sorted so the corresponding values are ascending, equal values kept
in index order. -/
def argsort (x : List ℚ) : List ℕ :=
  (List.range x.length).insertionSort (AscIdx x)

/-- Python tail slice `a[-k:]` for an `int` `k` (driver.py line 79 uses
`[-k:]` with `k = self.nwords`): for `k > 0` the last `min k n` elements;
for `k ≤ 0` the slice is `a[(-k):]`, i.e. the first `-k` elements are
dropped (in particular `a[-0:]` is the whole list). -/
def pyTailSlice (a : List α) (k : Int) : List α :=
  if 0 < k then a.drop (a.length - k.toNat) else a.drop (-k).toNat

/-- The selection `indices = tfidfs.argsort()[-k:][::-1]` (driver.py line 79). -/
def topKIndices (x : List ℚ) (k : Int) : List ℕ :=
  (pyTailSlice (argsort x) k).reverse

/-- The body of `getTopKWords(x, k)` (driver.py lines 76-81):
`tfidfs = x.toArray(); indices = tfidfs.argsort()[-k:][::-1];
return tfidfs[indices].tolist(), [vocab[i] for i in indices]`.
The dense array is the list `x`; fancy indexing and the list comprehension
are maps over `indices`. -/
def getTopKWords (vocab : List String) (x : List ℚ) (k : Int) :
    List ℚ × List String :=
  ((topKIndices x k).map (fun i => x.getD i 0),
   (topKIndices x k).map (fun i => vocab.getD i ""))

/-- Descending index order actually realised by `getTopKWords`: an index with
the strictly higher score comes first, and of two indices with equal score the
HIGHER vocabulary index comes first. -/
def DescIdx (x : List ℚ) (i j : ℕ) : Prop :=
  x.getD j 0 < x.getD i 0 ∨ (x.getD i 0 = x.getD j 0 ∧ j ≤ i)

lemma descIdx_iff_ascIdx (x : List ℚ) (i j : ℕ) : DescIdx x i j ↔ AscIdx x j i := by
  unfold DescIdx AscIdx
  constructor
  · rintro (h | ⟨h, hle⟩)
    · exact Or.inl h
    · exact Or.inr ⟨h.symm, hle⟩
  · rintro (h | ⟨h, hle⟩)
    · exact Or.inl h
    · exact Or.inr ⟨h.symm, hle⟩

instance (x : List ℚ) : DecidableRel (DescIdx x) := fun i j => by
  unfold DescIdx; infer_instance

instance (x : List ℚ) : IsTotal ℕ (DescIdx x) where
  total i j := by
    rcases IsTotal.total (r := AscIdx x) i j with h | h
    · exact Or.inr ((descIdx_iff_ascIdx x j i).mpr h)
    · exact Or.inl ((descIdx_iff_ascIdx x i j).mpr h)

instance (x : List ℚ) : IsTrans ℕ (DescIdx x) where
  trans i j l hij hjl :=
    (descIdx_iff_ascIdx x i l).mpr
      (IsTrans.trans (r := AscIdx x) l j i
        ((descIdx_iff_ascIdx x j l).mp hjl) ((descIdx_iff_ascIdx x i j).mp hij))

instance (x : List ℚ) : IsAntisymm ℕ (DescIdx x) where
  antisymm i j hij hji :=
    (IsAntisymm.antisymm (r := AscIdx x) i j
      ((descIdx_iff_ascIdx x j i).mp hji) ((descIdx_iff_ascIdx x i j).mp hij))

/-- The per-document selection described by the (amended) specification of the
top-K stage: all vocabulary indices sorted by score descending, ties broken
towards the higher index, truncated to the first `k`. -/
def topKIndicesDesc (x : List ℚ) (k : ℕ) : List ℕ :=
  ((List.range x.length).insertionSort (DescIdx x)).take k

lemma argsort_perm (x : List ℚ) : (argsort x).Perm (List.range x.length) :=
  List.perm_insertionSort _ _

lemma argsort_length (x : List ℚ) : (argsort x).length = x.length := by
  rw [(argsort_perm x).length_eq, List.length_range]

/-- The reverse of the stable ascending argsort is exactly the descending sort
with ties to the higher index. -/
lemma argsort_reverse_eq (x : List ℚ) :
    (argsort x).reverse = (List.range x.length).insertionSort (DescIdx x) := by
  apply List.eq_of_perm_of_sorted (r := DescIdx x)
  · exact ((argsort x).reverse_perm.trans (argsort_perm x)).trans
      (List.perm_insertionSort _ _).symm
  · have hs : List.Sorted (AscIdx x) (argsort x) :=
      List.sorted_insertionSort _ _
    rw [List.Sorted, List.pairwise_reverse]
    exact hs.imp (fun {i j} h => (descIdx_iff_ascIdx x j i).mpr h)
  · exact List.sorted_insertionSort _ _

/-- For a positive `k`, the selected indices are the first `k.toNat` of the
descending sort. -/
lemma topKIndices_eq_take (x : List ℚ) (k : Int) (hk : 0 < k) :
    topKIndices x k = topKIndicesDesc x k.toNat := by
  unfold topKIndices topKIndicesDesc pyTailSlice
  rw [if_pos hk, List.reverse_drop, argsort_reverse_eq]
  have hlen : ((List.range x.length).insertionSort (DescIdx x)).length
      = (argsort x).length := by
    rw [(List.perm_insertionSort _ _).length_eq, List.length_range,
      argsort_length]
  rw [List.take_eq_take]
  omega

/-- Every selected index is an index of the dense score array. -/
lemma mem_topKIndices_lt (x : List ℚ) (k : Int) (i : ℕ)
    (hi : i ∈ topKIndices x k) : i < x.length := by
  unfold topKIndices pyTailSlice at hi
  rw [List.mem_reverse] at hi
  have hmem : i ∈ argsort x := by
    by_cases h : 0 < k
    · rw [if_pos h] at hi
      exact List.drop_subset _ _ hi
    · rw [if_neg h] at hi
      exact List.drop_subset _ _ hi
  rw [← List.mem_range (n := x.length)]
  exact (argsort_perm x).subset hmem

lemma topKIndicesDesc_nodup (x : List ℚ) (k : ℕ) : (topKIndicesDesc x k).Nodup := by
  have h : ((List.range x.length).insertionSort (DescIdx x)).Nodup :=
    (List.perm_insertionSort _ _).nodup_iff.mpr (List.nodup_range _)
  exact (List.take_sublist _ _).nodup h

/-! ### Configuration surface (driver.py lines 30-39)

`argparse` is external; the recognized options and their default values are
read off the `parser.add_argument` calls. -/

structure Config where
  minlength : Int
  nwords : Int
  nsubreddits : Int
  mindf : ℚ
  vocabsize : Int

/-- The defaults of the `add_argument` calls (driver.py lines 30-39):
`minlength=50000`, `nwords=10`, `nsubreddits=10`, `mindf=1.0`,
`vocabsize=20000`. -/
def defaultConfig : Config :=
  { minlength := 50000, nwords := 10, nsubreddits := 10, mindf := 1,
    vocabsize := 20000 }

/-! ### `TopKWords.__init__` (driver.py lines 56-62) -/

structure TopKWordsStage where
  key : Option String
  val : Option String
  inputCol : Option String
  outputCol : Option String
  nwords : Int

/-- Constructor `TopKWords.__init__` (driver.py lines 56-62): it only assigns the five
fields and performs no validation. A Python constructor may raise, so the
embedding returns `Except`; this constructor body contains no `raise`, so it
always returns `.ok`. -/
def topKWordsInit (key val inputCol outputCol : Option String)
    (nwords : Int) : Except String TopKWordsStage :=
  .ok { key := key, val := val, inputCol := inputCol, outputCol := outputCol,
        nwords := nwords }

/-! ### Output table name (driver.py lines 115-117)

`trans_table = str.maketrans('', '', '-_')`,
`filename = basename(normpath(args.filepath))`,
`filename.translate(trans_table)`.
`posixpath.normpath` and `posixpath.basename` are embedded structurally over
the character list of the path. -/

/-- Split a character list at every character satisfying `p` (the semantics of
Python `str.split(sep)` used inside `posixpath.normpath`, with empty pieces
kept). -/
def splitBy (p : Char → Bool) : List Char → List (List Char)
  | [] => [[]]
  | c :: rest =>
    let r := splitBy p rest
    if p c then [] :: r
    else
      match r with
      | [] => [[c]]
      | h :: t => (c :: h) :: t

/-- The `initial_slashes` computation of `posixpath.normpath`: 1 for one
leading slash, 2 for exactly two, 1 again for three or more, 0 otherwise. -/
def initialSlashes : List Char → ℕ
  | '/' :: '/' :: '/' :: _ => 1
  | '/' :: '/' :: _ => 2
  | '/' :: _ => 1
  | _ => 0

/-- The component loop of `posixpath.normpath`: drop empty and `.` components,
resolve `..` against a previous component when allowed. -/
def normParts (isl : ℕ) (comps : List (List Char)) : List (List Char) :=
  comps.foldl
    (fun acc comp =>
      if comp = [] ∨ comp = ['.'] then acc
      else if comp ≠ ['.', '.'] ∨ (isl = 0 ∧ acc = []) ∨
          (acc ≠ [] ∧ acc.getLast? = some ['.', '.']) then acc ++ [comp]
      else if acc ≠ [] then acc.dropLast
      else acc)
    []

/-- Function `posixpath.normpath` (called at driver.py line 116). -/
def normpath (path : String) : String :=
  let l := path.toList
  if l = [] then "."
  else
    let isl := initialSlashes l
    let parts := normParts isl (splitBy (· == '/') l)
    let res := List.replicate isl '/' ++ List.intercalate ['/'] parts
    if res = [] then "." else res.asString

/-- Function `posixpath.basename` (called at driver.py line 116): everything after the
last `'/'`. -/
def basename (p : String) : String :=
  ((p.toList.reverse.takeWhile (fun c => c != '/')).reverse).asString

/-- The translation table `str.maketrans('', '', '-_')` (driver.py line 115):
`'-'` and `'_'` are mapped to `None`, i.e. deleted; every other character is
absent from the table and kept. -/
def transTable : List (Char × Option Char) := [('-', none), ('_', none)]

/-- Python `str.translate`: map each character through the table, where a
missing entry keeps the character, `None` deletes it, and a character entry
replaces it. -/
def pyTranslate (table : List (Char × Option Char)) (s : String) : String :=
  (s.toList.foldr
    (fun c acc =>
      match table.lookup c with
      | none => c :: acc
      | some none => acc
      | some (some d) => d :: acc)
    []).asString

/-- The saved table's name (driver.py lines 115-117):
`basename(normpath(args.filepath)).translate(str.maketrans('', '', '-_'))`. -/
def tableName (filepath : String) : String :=
  pyTranslate transTable (basename (normpath filepath))

/-- The deletion the claim describes, stated independently of `pyTranslate`:
remove every `'-'` and `'_'` character. -/
def stripDashUnderscore (s : String) : String :=
  (s.toList.filter (fun c => !(c == '-' || c == '_'))).asString

/-! ### Dropped columns and table write (driver.py lines 111-117) -/

/-- The column names dropped at driver.py line 112. -/
def droppedColumns : List String :=
  ["body", "cleaned", "tf", "tokens", "swr_tokens", "norm"]

/-- Spark `DataFrame.drop` on a schema: remove the named columns, ignore
names not present, keep all other columns in order. -/
def dropColumns (cols toDrop : List String) : List String :=
  cols.filter (fun c => decide (c ∉ toDrop))

/-- The drop `df.drop('body', 'cleaned', 'tf', 'tokens', 'swr_tokens', 'norm')`
(driver.py line 112). -/
def driverDrop (cols : List String) : List String :=
  dropColumns cols droppedColumns

/-- Spark `DataFrameWriter` save modes. -/
inductive SaveMode where
  | overwrite
  | append
  | ignore
  | errorIfExists
deriving DecidableEq

/-- Modelled from the spec: the external table-writing collaborator (§6 Output), following the Spark `DataFrameWriter.saveAsTable` contract over a
store of named tables: `overwrite` replaces all existing data of the table,
`append` adds to it, `ignore` is a no-op when it exists, `errorIfExists`
raises when it exists. -/
def saveAsTable {Rec : Type} (mode : SaveMode)
    (store : List (String × List Rec)) (name : String) (recs : List Rec) :
    Except String (List (String × List Rec)) :=
  match mode with
  | .overwrite => .ok ((name, recs) :: store.filter (fun e => e.1 != name))
  | .append =>
    match store.lookup name with
    | some old =>
      .ok ((name, old ++ recs) :: store.filter (fun e => e.1 != name))
    | none => .ok ((name, recs) :: store)
  | .ignore =>
    match store.lookup name with
    | some _ => .ok store
    | none => .ok ((name, recs) :: store)
  | .errorIfExists =>
    match store.lookup name with
    | some _ => .error "table already exists"
    | none => .ok ((name, recs) :: store)

/-- The write `df.write.mode('overwrite').saveAsTable(filename.translate(trans_table))`
(driver.py line 117). -/
def driverWrite {Rec : Type} (store : List (String × List Rec))
    (filepath : String) (recs : List Rec) :
    Except String (List (String × List Rec)) :=
  saveAsTable .overwrite store (tableName filepath) recs

/-! ### The pipeline as a whole (driver.py lines 88-111)

The driver composes `Extractor`, `Cleaner`, `Filterer`, `RegexTokenizer`,
`StopWordsRemover`, `CountVectorizer`, `IDF`, `TopKWords`,
`CosineSimilarity` and `TopKSubreddits`. The stages implemented in
`transformers.py` and in `pyspark.ml` are not part of `src/`, so they are
modelled from the specification (§4.1-§4.10); `TopKWords` is embedded from
the source above. -/

/-- A raw input record: a group key (`subreddit`) and a text body. -/
structure Comment where
  subreddit : String
  body : String

/-- Modelled from the spec: §4.2 Cleaner is not under src/; per-record text normalization,
"text lowercased and stripped of a configured set of unwanted characters";
the model lowercases and keeps alphanumeric characters and spaces. -/
def cleanText (s : String) : String :=
  ((s.toList.map Char.toLower).filter (fun c => c.isAlphanum || c == ' ')).asString

/-- First occurrences of each key, in input order. -/
def distinctFirst (l : List String) : List String :=
  l.foldl (fun acc k => if k ∈ acc then acc else acc ++ [k]) []

/-- Modelled from the spec: §3 Document and §4.1 Extractor are not under src/; one document per
distinct group key, holding the aggregate of that group's comment bodies. -/
def documents (comments : List Comment) : List (String × String) :=
  (distinctFirst (comments.map (·.subreddit))).map
    (fun k =>
      (k, String.intercalate " "
        ((comments.filter (fun c => c.subreddit == k)).map (·.body))))

/-- Modelled from the spec: §4.3 Filterer is not under src/; groups whose total text length is
below `minlength` are dropped entirely. -/
def filterGroups (minlength : Int) (docs : List (String × String)) :
    List (String × String) :=
  docs.filter (fun d => decide (minlength ≤ (d.2.length : Int)))

/-- Modelled from the spec: §4.4 Tokenizer (external RegexTokenizer); split on non-word characters
(the driver's `RegexTokenizer` pattern `\W`, i.e. anything outside
`[A-Za-z0-9_]`), dropping empty tokens. -/
def tokenize (s : String) : List String :=
  ((splitBy (fun c => !(c.isAlphanum || c == '_')) s.toList).filter
    (fun t => t != [])).map List.asString

/-- Modelled from the spec: §4.5 StopWordRemover (external StopWordsRemover); a fixed stopword set. -/
def stopWords : List String :=
  ["the", "a", "an", "and", "of", "to", "in", "is", "it", "i", "you"]

/-- Modelled from the spec: §4.5; remove stopwords from a token sequence. -/
def removeStopWords (tokens : List String) : List String :=
  tokens.filter (fun t => !(stopWords.contains t))

/-- Number of documents whose token sequence contains the term. -/
def docFrequency (docs : List (String × List String)) (t : String) : ℕ :=
  (docs.filter (fun d => d.2.contains t)).length

/-- Total number of occurrences of the term across the corpus. -/
def termCount (docs : List (String × List String)) (t : String) : ℕ :=
  (docs.map (fun d => d.2.count t)).sum

/-- Lexicographic comparison of character lists (code-point order), used for
the vocabulary tie-break. -/
def strLexLe : List Char → List Char → Bool
  | [], _ => true
  | _ :: _, [] => false
  | c :: cs, d :: ds => if c = d then strLexLe cs ds else decide (c < d)

/-- Modelled from the spec: §4.6 vocabulary ordering; most frequent first,
frequency ties broken by lexicographic order of the term string. -/
def VocabOrder (docs : List (String × List String)) (s t : String) : Prop :=
  termCount docs t < termCount docs s ∨
    (termCount docs s = termCount docs t ∧ strLexLe s.toList t.toList = true)

instance (docs : List (String × List String)) : DecidableRel (VocabOrder docs) :=
  fun s t => by unfold VocabOrder; infer_instance

/-- Modelled from the spec: §4.6 VocabularyBuilder (external CountVectorizer); the top `vocabsize` most
frequent distinct terms whose document frequency is at least `mindf`. -/
def buildVocab (mindf : ℚ) (vocabsize : Int)
    (docs : List (String × List String)) : List String :=
  let candidates := (distinctFirst (docs.flatMap (·.2))).filter
    (fun t => decide (mindf ≤ (docFrequency docs t : ℚ)))
  (candidates.insertionSort (VocabOrder docs)).take vocabsize.toNat

/-- Modelled from the spec: §4.6; the dense term-count vector of a document,
indexed by the vocabulary. -/
def termVector (vocab : List String) (tokens : List String) : List ℕ :=
  vocab.map (fun t => tokens.count t)

/-- Modelled from the spec: §4.7 IDFWeighter (external IDF);
`idf(t) = ln((N + 1) / (df(t) + 1)) + 1`. The natural logarithm is strictly
monotone and the downstream stages consume the weights only through their
ordering, so the weight is modelled by the rational `(N + 1) / (df + 1)`,
which induces the same ordering and keeps the model executable. -/
def idfWeight (n df : ℕ) : ℚ := (n + 1 : ℚ) / (df + 1)

/-- Modelled from the spec: §4.7; `tfidf(t, d) = tf(t, d) * idf(t)`, dense
over the vocabulary. -/
def tfidfVector (docsCount : ℕ) (dfs : List ℕ) (tf : List ℕ) : List ℚ :=
  (List.zip tf dfs).map (fun p => (p.1 : ℚ) * idfWeight docsCount p.2)

/-- Dot product of two dense vectors. -/
def dotProd (a b : List ℚ) : ℚ := ((List.zip a b).map (fun p => p.1 * p.2)).sum

/-- Squared L2 norm. -/
def normSq (a : List ℚ) : ℚ := dotProd a a

/-- Modelled from the spec: §4.9 CosineSimilarityComputer is not under src/; cosine similarity
with zero-norm vectors assigned similarity 0. The similarity is consumed only
for ranking and the vectors are non-negative, so the square of the cosine
(`dot² / (‖a‖²·‖b‖²)`, a monotone transform on non-negative values) stands in
for the cosine to stay within ℚ. -/
def cosSimSq (a b : List ℚ) : ℚ :=
  if normSq a = 0 ∨ normSq b = 0 then 0
  else dotProd a b ^ 2 / (normSq a * normSq b)

/-- Modelled from the spec: §4.10 ordering of (group key, similarity) pairs;
higher similarity first, ties broken by lexicographic group-key order. -/
def SimOrder (p q : String × ℚ) : Prop :=
  q.2 < p.2 ∨ (p.2 = q.2 ∧ strLexLe p.1.toList q.1.toList = true)

instance : DecidableRel SimOrder :=
  fun p q => by unfold SimOrder; infer_instance

/-- Modelled from the spec: §4.10 TopSimilarGroups is not under src/; for one document, the
`nsubreddits` most similar other documents, self excluded. -/
def topKSubreddits (nsubreddits : Int) (self : String × List ℚ)
    (all : List (String × List ℚ)) : List (String × ℚ) :=
  let scored := (all.filter (fun d => d.1 != self.1)).map
    (fun d => (d.1, cosSimSq self.2 d.2))
  (scored.insertionSort SimOrder).take nsubreddits.toNat

/-- The pipeline outputs the run persists: the fitted vocabulary and the
per-document top-K results. -/
structure PipelineOutput where
  vocab : List String
  topWords : List (String × (List ℚ × List String))
  topSubreddits : List (String × List (String × ℚ))

/-- The whole run of driver.py lines 88-111: stage composition in the order
`Extractor, Cleaner, Filterer, Tokenizer, StopWordsRemover, CountVectorizer,
IDF, TopKWords, CosineSimilarity, TopKSubreddits`, with the vocabulary
extracted from the fitted `CountVectorizerModel` and used inside
`getTopKWords`. -/
def runPipeline (cfg : Config) (input : List Comment) : PipelineOutput :=
  let cleaned := input.map (fun c => { c with body := cleanText c.body })
  let docs := filterGroups cfg.minlength (documents cleaned)
  let toks := docs.map (fun d => (d.1, removeStopWords (tokenize d.2)))
  let vocab := buildVocab cfg.mindf cfg.vocabsize toks
  let dfs := vocab.map (docFrequency toks)
  let vecs := toks.map
    (fun d => (d.1, tfidfVector toks.length dfs (termVector vocab d.2)))
  { vocab := vocab
    topWords := vecs.map (fun d => (d.1, getTopKWords vocab d.2 cfg.nwords))
    topSubreddits :=
      vecs.map (fun d => (d.1, topKSubreddits cfg.nsubreddits d vecs)) }

/-- A small concrete input used to instantiate the determinism theorem. -/
def sampleComments : List Comment :=
  [{ subreddit := "cats", body := "I love cats cats" },
   { subreddit := "dogs", body := "dogs are loud" }]

/-! ## Helper lemmas shared by the claim theorems -/

lemma topKIndices_length (x : List ℚ) (k : Int) (hk : 0 < k) :
    (topKIndices x k).length = min k.toNat x.length := by
  rw [topKIndices_eq_take x k hk]
  unfold topKIndicesDesc
  rw [List.length_take, (List.perm_insertionSort _ _).length_eq,
    List.length_range]

lemma topKIndices_sorted (x : List ℚ) (k : Int) (hk : 0 < k) :
    List.Sorted (DescIdx x) (topKIndices x k) := by
  rw [topKIndices_eq_take x k hk]
  unfold topKIndicesDesc
  exact List.Pairwise.sublist (List.take_sublist _ _)
    (List.sorted_insertionSort _ _)

lemma topKIndices_nodup (x : List ℚ) (k : Int) (hk : 0 < k) :
    (topKIndices x k).Nodup := by
  rw [topKIndices_eq_take x k hk]
  exact topKIndicesDesc_nodup x k.toNat

/-- The foldr of `pyTranslate` over the driver's deletion table is character
filtering. -/
lemma translate_chars (l : List Char) :
    l.foldr
      (fun c acc =>
        match transTable.lookup c with
        | none => c :: acc
        | some none => acc
        | some (some d) => d :: acc)
      []
      = l.filter (fun c => !(c == '-' || c == '_')) := by
  induction l with
  | nil => rfl
  | cons c cs ih =>
    rw [List.foldr_cons, ih, List.filter_cons]
    by_cases h1 : c = '-'
    · subst h1; rfl
    · by_cases h2 : c = '_'
      · subst h2; rfl
      · have hb1 : (c == '-') = false := by simp [h1]
        have hb2 : (c == '_') = false := by simp [h2]
        simp [transTable, List.lookup, hb1, hb2]

lemma pyTranslate_transTable (s : String) :
    pyTranslate transTable s = stripDashUnderscore s :=
  congrArg List.asString (translate_chars s.toList)

/-! ## The claims -/

/-- C1, counterexample: the document `[0, 2, 0]` has one non-zero entry,
fewer than `nwords = 2`, yet `getTopKWords` returns the two pairs
`(2, "b"), (0, "c")` — a padded result with a zero-score entry, not the empty
sequence the claim requires. -/
theorem c1_counterexample_padded_not_empty :
    (([0, 2, 0] : List ℚ).countP (fun q => decide (q ≠ 0))) = 1 ∧ 1 < 2 ∧
    getTopKWords ["a", "b", "c"] [0, 2, 0] 2 = ([2, 0], ["b", "c"]) ∧
    (getTopKWords ["a", "b", "c"] [0, 2, 0] 2).2 ≠ ([] : List String) := by
  decide

/-- C1, amended: for every positive `nwords`, `getTopKWords` returns exactly
`min nwords vocabsize` (vector length) pairs — when the document has fewer
than `nwords` non-zero entries the result is padded with zero-score entries,
and it is non-empty whenever the vector is. -/
theorem c1_amended_length_min (vocab : List String) (x : List ℚ) (k : Int)
    (hk : 0 < k) :
    (getTopKWords vocab x k).1.length = min k.toNat x.length ∧
    (getTopKWords vocab x k).2.length = min k.toNat x.length ∧
    (x.length ≠ 0 → (getTopKWords vocab x k).2 ≠ []) := by
  unfold getTopKWords
  simp only [List.length_map]
  refine ⟨topKIndices_length x k hk, topKIndices_length x k hk, fun hx h => ?_⟩
  have hlen := congrArg List.length h
  rw [List.length_map, topKIndices_length x k hk, List.length_nil] at hlen
  omega

/-- C1, witness for the amended theorem at `x = [0, 2, 0]`, `k = 2`. -/
theorem c1_amended_witness :
    (getTopKWords ["a", "b", "c"] [0, 2, 0] 2).1.length =
      min (2 : Int).toNat ([0, 2, 0] : List ℚ).length ∧
    (getTopKWords ["a", "b", "c"] [0, 2, 0] 2).2.length =
      min (2 : Int).toNat ([0, 2, 0] : List ℚ).length ∧
    (([0, 2, 0] : List ℚ).length ≠ 0 →
      (getTopKWords ["a", "b", "c"] [0, 2, 0] 2).2 ≠ []) :=
  c1_amended_length_min ["a", "b", "c"] [0, 2, 0] 2 (by decide)

/-- C2, counterexample: on `[5, 5, 3]` with `nwords = 2` the scores of
indices 0 and 1 are equal, yet `getTopKWords` returns `(["b", "a"])` — the
HIGHER vocabulary index ordered first — not `(["a", "b"])` as the claim
requires. -/
theorem c2_counterexample_tie_order :
    ([5, 5, 3] : List ℚ).getD 0 0 = ([5, 5, 3] : List ℚ).getD 1 0 ∧
    getTopKWords ["a", "b", "c"] [5, 5, 3] 2 = ([5, 5], ["b", "a"]) ∧
    getTopKWords ["a", "b", "c"] [5, 5, 3] 2 ≠
      (([5, 5], ["a", "b"]) : List ℚ × List String) := by
  decide

/-- C2, amended: for every positive `nwords` the stage selects the `nwords`
indices with the highest score, but whenever two indices have equal score the
HIGHER vocabulary index is selected (and ordered) before the lower one: the
result is the `nwords`-prefix of the descending sort with ties towards the
higher index. -/
theorem c2_amended_desc_highest_index_first (vocab : List String)
    (x : List ℚ) (k : Int) (hk : 0 < k) :
    topKIndices x k = topKIndicesDesc x k.toNat ∧
    getTopKWords vocab x k =
      ((topKIndicesDesc x k.toNat).map (fun i => x.getD i 0),
       (topKIndicesDesc x k.toNat).map (fun i => vocab.getD i "")) := by
  have h := topKIndices_eq_take x k hk
  exact ⟨h, by unfold getTopKWords; rw [h]⟩

/-- C2, witness for the amended theorem at `x = [5, 5, 3]`, `k = 2`. -/
theorem c2_amended_witness :
    topKIndices [5, 5, 3] 2 = topKIndicesDesc [5, 5, 3] (2 : Int).toNat ∧
    getTopKWords ["a", "b", "c"] [5, 5, 3] 2 =
      ((topKIndicesDesc [5, 5, 3] (2 : Int).toNat).map
        (fun i => ([5, 5, 3] : List ℚ).getD i 0),
       (topKIndicesDesc [5, 5, 3] (2 : Int).toNat).map
        (fun i => ["a", "b", "c"].getD i "")) :=
  c2_amended_desc_highest_index_first ["a", "b", "c"] [5, 5, 3] 2 (by decide)

/-- C3: for positive `nwords`, a duplicate-free vocabulary and a dense score
vector no longer than the vocabulary, the per-document result is sorted in
non-increasing score order, has length at most `nwords`, and repeats no
word. -/
theorem c3_topwords_sorted_bounded_nodup (vocab : List String) (x : List ℚ)
    (k : Int) (hk : 0 < k) (hnd : vocab.Nodup)
    (hlen : x.length ≤ vocab.length) :
    List.Sorted (fun a b : ℚ => b ≤ a) (getTopKWords vocab x k).1 ∧
    (getTopKWords vocab x k).1.length ≤ k.toNat ∧
    (getTopKWords vocab x k).2.length ≤ k.toNat ∧
    (getTopKWords vocab x k).2.Nodup := by
  have hlen' : (topKIndices x k).length ≤ k.toNat := by
    rw [topKIndices_length x k hk]; exact min_le_left _ _
  unfold getTopKWords
  refine ⟨?_, ?_, ?_, ?_⟩
  · exact List.Pairwise.map _
      (fun a b (h : DescIdx x a b) => by
        rcases h with h | ⟨h, _⟩
        · exact le_of_lt h
        · exact le_of_eq h.symm)
      (topKIndices_sorted x k hk)
  · rw [List.length_map]; exact hlen'
  · rw [List.length_map]; exact hlen'
  · refine List.Nodup.map_on ?_ (topKIndices_nodup x k hk)
    intro i hi j hj heq
    have hi' : i < vocab.length := lt_of_lt_of_le (mem_topKIndices_lt x k i hi) hlen
    have hj' : j < vocab.length := lt_of_lt_of_le (mem_topKIndices_lt x k j hj) hlen
    rw [List.getD_eq_get vocab "" hi', List.getD_eq_get vocab "" hj'] at heq
    exact Fin.mk.injEq i hi' j hj' ▸ (hnd.get_inj_iff).mp heq

/-- C3, witness at `vocab = ["a", "b", "c"]`, `x = [0, 2, 0]`, `k = 2`. -/
theorem c3_witness :
    List.Sorted (fun a b : ℚ => b ≤ a)
      (getTopKWords ["a", "b", "c"] [0, 2, 0] 2).1 ∧
    (getTopKWords ["a", "b", "c"] [0, 2, 0] 2).1.length ≤ (2 : Int).toNat ∧
    (getTopKWords ["a", "b", "c"] [0, 2, 0] 2).2.length ≤ (2 : Int).toNat ∧
    (getTopKWords ["a", "b", "c"] [0, 2, 0] 2).2.Nodup :=
  c3_topwords_sorted_bounded_nodup ["a", "b", "c"] [0, 2, 0] 2 (by decide)
    (by decide) (by decide)

/-- C4, counterexample: `nwords = 0` violates the positivity requirement, yet
`TopKWords.__init__` succeeds — it performs no validation and no failure is
signalled at pipeline construction. -/
theorem c4_counterexample_init_accepts_nonpositive :
    ((0 : Int) ≤ 0) ∧
    topKWordsInit none none (some "tfidf") (some "top_words") 0 =
      .ok { key := none, val := none, inputCol := some "tfidf",
            outputCol := some "top_words", nwords := 0 } :=
  ⟨le_refl 0, rfl⟩

/-- C4, amended: construction of the `TopKWords` stage succeeds for every
`nwords` value, including `nwords ≤ 0`; no configuration validation happens
at construction time. -/
theorem c4_amended_init_never_fails (key val inputCol outputCol : Option String)
    (nwords : Int) :
    topKWordsInit key val inputCol outputCol nwords =
      .ok { key := key, val := val, inputCol := inputCol,
            outputCol := outputCol, nwords := nwords } :=
  rfl

/-- C5: the configuration defaults are exactly `minlength = 50000`,
`nwords = 10`, `nsubreddits = 10`, `mindf = 1.0`, `vocabsize = 20000`. -/
theorem c5_defaults :
    defaultConfig.minlength = 50000 ∧ defaultConfig.nwords = 10 ∧
    defaultConfig.nsubreddits = 10 ∧ defaultConfig.mindf = 1 ∧
    defaultConfig.vocabsize = 20000 :=
  ⟨rfl, rfl, rfl, rfl, rfl⟩

/-- C6: two runs of the pipeline on identical input with identical
configuration produce the identical vocabulary (same terms, same indices) and
identical top-words and top-subreddits outputs. -/
theorem c6_two_run_determinism (cfg₁ cfg₂ : Config) (in₁ in₂ : List Comment)
    (hcfg : cfg₁ = cfg₂) (hin : in₁ = in₂) :
    (runPipeline cfg₁ in₁).vocab = (runPipeline cfg₂ in₂).vocab ∧
    (runPipeline cfg₁ in₁).topWords = (runPipeline cfg₂ in₂).topWords ∧
    (runPipeline cfg₁ in₁).topSubreddits =
      (runPipeline cfg₂ in₂).topSubreddits := by
  subst hcfg hin
  exact ⟨rfl, rfl, rfl⟩

/-- C6, witness at the default configuration and a two-comment corpus. -/
theorem c6_witness :
    (runPipeline defaultConfig sampleComments).vocab =
      (runPipeline defaultConfig sampleComments).vocab ∧
    (runPipeline defaultConfig sampleComments).topWords =
      (runPipeline defaultConfig sampleComments).topWords ∧
    (runPipeline defaultConfig sampleComments).topSubreddits =
      (runPipeline defaultConfig sampleComments).topSubreddits :=
  c6_two_run_determinism defaultConfig defaultConfig sampleComments
    sampleComments rfl rfl

/-- C7: when the dense score vector has one entry per vocabulary term and the
vocabulary respects the size cap, every index selected by the top-K stage is
below `vocabsize` and the lookup `vocab[i]` succeeds. -/
theorem c7_topk_indices_in_bounds (vocab : List String) (x : List ℚ)
    (k : Int) (vocabsize : ℕ) (i : ℕ) (hx : x.length = vocab.length)
    (hv : vocab.length ≤ vocabsize) (hi : i ∈ topKIndices x k) :
    i < vocabsize ∧ (vocab.get? i).isSome = true := by
  have hlt := mem_topKIndices_lt x k i hi
  rw [hx] at hlt
  refine ⟨lt_of_lt_of_le hlt hv, ?_⟩
  rw [List.get?_eq_get hlt]
  rfl

/-- C7, witness at `vocab = ["a", "b"]`, `x = [1, 2]`, `k = 2`, `i = 1`. -/
theorem c7_witness :
    1 < 2 ∧ ((["a", "b"] : List String).get? 1).isSome = true :=
  c7_topk_indices_in_bounds ["a", "b"] [1, 2] 2 2 1 rfl (by decide) (by decide)

/-- C8: the driver's write (`mode('overwrite').saveAsTable`) fully replaces
any prior content of the destination table: afterwards the store holds
exactly this run's records under that table name, whatever was there
before. -/
theorem c8_overwrite_replaces (Rec : Type) (store : List (String × List Rec))
    (fp : String) (recs : List Rec) :
    ∃ s', driverWrite store fp recs = .ok s' ∧
      s'.filter (fun e => e.1 == tableName fp) = [(tableName fp, recs)] ∧
      s'.lookup (tableName fp) = some recs := by
  refine ⟨(tableName fp, recs) :: store.filter (fun e => e.1 != tableName fp),
    rfl, ?_, List.lookup_cons_self⟩
  rw [List.filter_cons]
  simp only [beq_self_eq_true, if_pos, List.filter_filter]
  have : store.filter
      (fun a => (a.1 == tableName fp) && (a.1 != tableName fp)) = [] := by
    refine List.filter_eq_nil_iff.mpr (fun a _ => ?_)
    simp [bne]
  rw [this]

/-- C8, witness: overwrite of a store that already holds records under the
destination name. -/
theorem c8_witness :
    ∃ s', driverWrite [("ds", [0]), ("x", [7])] "d-s" [(1 : Int)] = .ok s' ∧
      s'.filter (fun e => e.1 == tableName "d-s") = [(tableName "d-s", [1])] ∧
      s'.lookup (tableName "d-s") = some [1] := by
  have h := c8_overwrite_replaces Int [("ds", [0]), ("x", [7])] "d-s" [1]
  exact h

/-- C9: the output table name is the basename of the normalized input path
with every `'-'` and `'_'` deleted; consequently two paths whose basenames
agree after that deletion write to the same table. -/
theorem c9_table_name_strips_dash_underscore :
    (∀ p : String,
      tableName p = stripDashUnderscore (basename (normpath p))) ∧
    (∀ p q : String,
      stripDashUnderscore (basename (normpath p)) =
        stripDashUnderscore (basename (normpath q)) →
      tableName p = tableName q) := by
  constructor
  · intro p
    exact pyTranslate_transTable _
  · intro p q h
    unfold tableName
    rw [pyTranslate_transTable, pyTranslate_transTable, h]

/-- C9, witness: `"dir/data-1_x"` and `"data_1-x"` collide on the table
`"data1x"`. -/
theorem c9_witness : tableName "dir/data-1_x" = tableName "data_1-x" :=
  c9_table_name_strips_dash_underscore.2 "dir/data-1_x" "data_1-x" (by decide)

/-- C10: the final drop removes exactly the columns `body`, `cleaned`, `tf`,
`tokens`, `swr_tokens`, `norm` and keeps every other column; on the pipeline's
transformed schema the persisted output keeps `tfidf` alongside `top_words`
and `top_subreddits`. -/
theorem c10_drop_columns_exact :
    (∀ (cols : List String) (c : String),
      c ∈ driverDrop cols ↔ c ∈ cols ∧ c ∉ droppedColumns) ∧
    driverDrop ["subreddit", "body", "tokens", "swr_tokens", "tf", "tfidf",
        "top_words", "norm", "top_subreddits"] =
      ["subreddit", "tfidf", "top_words", "top_subreddits"] := by
  constructor
  · intro cols c
    unfold driverDrop dropColumns
    simp [List.mem_filter]
  · decide

/-- C10, witness: `tfidf` survives a drop it is not named in. -/
theorem c10_witness : "tfidf" ∈ driverDrop ["body", "tfidf"] :=
  (c10_drop_columns_exact.1 ["body", "tfidf"] "tfidf").mpr
    ⟨by decide, by decide⟩

end RedditTfidf

